import Mathlib

/-!
Verification development for the ocrclip repository: a shallow embedding of
the screen-capture backend chain (`src/capture.py`) and of the overlay /
OCR-worker pipeline (`src/main.py`), with theorems checking the spec's claims
against the code.

Modelling conventions:
* byte strings are `List Nat` (each entry one byte value);
* Python exceptions become `Except String` results or `Option` values
  (`none` = the operation raised / failed);
* external effects (the mss library, Qt, the CLI screenshot tools, PIL image
  decoding, the easyocr engine) are oracles carried in environment
  structures, so every claim quantifies over their possible behaviours;
* the filesystem is the list of paths of files currently present, threaded
  explicitly through the functions that create or delete files.
-/

set_option autoImplicit false

namespace Ocrclip

/-- The six capture backends tried by `capture_region` in `src/capture.py`,
in source order: mss, Qt `grabWindow`, macOS `screencapture`, grim, maim,
ImageMagick `import`. -/
inductive Backend where
  | mss
  | qt
  | macos
  | grim
  | maim
  | imp
  deriving DecidableEq, Repr

/-- The name under which each backend's error is recorded in the `errors`
list of `capture_region` (`errors.append(f"mss: {e}")` etc.). -/
def backendName : Backend → String
  | Backend.mss => "mss"
  | Backend.qt => "qt"
  | Backend.macos => "macos"
  | Backend.grim => "grim"
  | Backend.maim => "maim"
  | Backend.imp => "import"

/-- Environment for `capture_region`: whether the optional mss module
imported (`_HAS_MSS`), whether `sys.platform == "darwin"`, and the behaviour
of each backend when invoked (`Except.ok` = returned bytes, `Except.error` =
raised an exception with that message). -/
structure CaptureEnv where
  hasMss : Bool
  isDarwin : Bool
  run : Backend → Except String (List Nat)

/-- Sequence of backends `capture_region` attempts, in source order:
mss only when `_HAS_MSS` (step 1 is guarded by `if _HAS_MSS:` and records no
error otherwise), Qt always (step 2), `screencapture` only on darwin
(step 3), then grim, maim and ImageMagick `import` (steps 4-6). -/
def attemptOrder (env : CaptureEnv) : List Backend :=
  (if env.hasMss then [Backend.mss] else []) ++ [Backend.qt]
    ++ (if env.isDarwin then [Backend.macos] else [])
    ++ [Backend.grim, Backend.maim, Backend.imp]

/-- The chain of `try: return ...; except Exception as e: errors.append(...)`
blocks in `capture_region`, folded over the list of attempted backends.
Returns the result together with the list of backends actually invoked.
When every backend raises, the final `RuntimeError` message is
`"no_suitable_screencapture_backend: "` followed by the recorded errors
joined with `", "`. -/
def runBackends (env : CaptureEnv) : List Backend → List String → Except String (List Nat) × List Backend
  | [], errs =>
    (Except.error ("no_suitable_screencapture_backend: " ++ String.intercalate ", " errs), [])
  | b :: rest, errs =>
    match env.run b with
    | Except.ok d => (Except.ok d, [b])
    | Except.error e =>
      let r := runBackends env rest (errs ++ [backendName b ++ ": " ++ e])
      (r.1, b :: r.2)

/-- `capture_region` from `src/capture.py`: try the backends of
`attemptOrder` in order, returning the first success, and raise
`RuntimeError` when all attempted backends fail. The second component is the
list of backends that were invoked. -/
def capture_region (env : CaptureEnv) : Except String (List Nat) × List Backend :=
  runBackends env (attemptOrder env) []

/-- `_cli_capture` (and the structurally identical bodies of
`_macos_capture`, `_grim_capture`, `_maim_capture`, `_import_capture`) from
`src/capture.py`: create a named temporary file, run the CLI tool, read the
file back, and in a `finally:` block unlink the temporary file. `runOk` is
whether `subprocess.check_call` succeeded; `content` is what the tool wrote
into the file. The second component is the resulting filesystem. -/
def cli_capture (tmpName : String) (runOk : Bool) (content : List Nat)
    (fs : List String) : Except String (List Nat) × List String :=
  let fs1 := fs ++ [tmpName]
  let res := if runOk then Except.ok content else Except.error "CalledProcessError"
  (res, fs1.erase tmpName)

/-- The capture payload handed to the coercion step of `_perform_capture` in
`src/main.py` (lines 319-366). Each constructor models one of the Python
runtime types the `isinstance` / `hasattr` chain distinguishes:
* `bytesP`, `bytearrayP`, `memoryviewP` carry the underlying bytes;
* `pilImage` carries the PNG encoding that `img.save(buf, format="PNG")`
  produces for the image;
* `qimage` / `qpixmap` carry the flag returned by `save(buf, "PNG")` and the
  buffer contents (used only when the flag is true);
* `dataObj` models an object with a callable `data()` method: `none` means
  `bytes(png.data())` raised;
* `tobytesObj` models an object with a `tobytes` attribute but no callable
  `data()`: `none` means `png.tobytes()` raised;
* `otherObj` models any remaining object: `none` means `bytes(png)` raised. -/
inductive Payload where
  | bytesP (b : List Nat)
  | bytearrayP (b : List Nat)
  | memoryviewP (b : List Nat)
  | pilImage (enc : List Nat)
  | qimage (saveOk : Bool) (buf : List Nat)
  | qpixmap (saveOk : Bool) (buf : List Nat)
  | dataObj (res : Option (List Nat))
  | tobytesObj (res : Option (List Nat))
  | otherObj (res : Option (List Nat))
  deriving DecidableEq, Repr

/-- The payload-to-bytes coercion of `_perform_capture` (`src/main.py`
319-366): bytes/bytearray via `bytes(png)`, memoryview via `tobytes()`, PIL
images re-encoded as PNG, then QImage/QPixmap saved to a `QBuffer` (kept only
when `save` returns true), then a callable `data()`, then `tobytes()`, and
finally a bare `bytes(png)` attempt. `none` is the state in which
`png_bytes` is still `None` (or not bytes) after the chain. -/
def coercePayload : Payload → Option (List Nat)
  | Payload.bytesP b => some b
  | Payload.bytearrayP b => some b
  | Payload.memoryviewP b => some b
  | Payload.pilImage enc => some enc
  | Payload.qimage saveOk buf => if saveOk then some buf else none
  | Payload.qpixmap saveOk buf => if saveOk then some buf else none
  | Payload.dataObj res => res
  | Payload.tobytesObj res => res
  | Payload.otherObj res => res

/-- Environment for the overlay's `_perform_capture` closure:
* `captureAvailable`: the `capture` module imported (is not `None`);
* `captureModule l t w h`: result of `capture.capture_region(l, t, w, h)`,
  `none` when it raised;
* `qtGrab l t w h`: the PNG bytes of the Qt fallback
  (`primaryScreen().grabWindow(0, l, t, w, h)` saved to a buffer), `none`
  when it raised, no screen existed, or `save` returned false;
* `pilValid b`: whether `Image.open(io.BytesIO(b))` followed by `load()`
  succeeds on the bytes `b`. -/
structure OverlayEnv where
  captureAvailable : Bool
  captureModule : Int → Int → Int → Int → Option Payload
  qtGrab : Int → Int → Int → Int → Option (List Nat)
  pilValid : List Nat → Bool

/-- First phase of `_perform_capture` (`src/main.py` 262-272): `png` after
the capture-module attempt — `None` when the module is unavailable or
`capture.capture_region` raised. -/
def modulePhase (env : OverlayEnv) (l t w h : Int) : Option Payload :=
  if env.captureAvailable then env.captureModule l t w h else none

/-- `png` after the Qt fallback block of `_perform_capture` (`src/main.py`
274-290): the Qt fallback runs exactly when the module phase left `png`
as `None`, and it is called with the same scaled coordinates. -/
def acquirePayload (env : OverlayEnv) (l t w h : Int) : Option Payload :=
  match modulePhase env l t w h with
  | some p => some p
  | none => (env.qtGrab l t w h).map Payload.bytesP

/-- Name of the raw debug dump `_perform_capture` writes for every acquired
payload (`src/main.py` 300-317), where `ts = int(time.time() * 1000)`. -/
def rawDumpName (ts : Nat) : String :=
  "ocrclip-raw-" ++ toString ts ++ ".bin"

/-- `_perform_capture` from `SnipOverlay.grab_region` (`src/main.py`
258-421). Returns the value emitted on the `snipped` signal (`none` models
`snipped.emit(None)`, `some (b, w, h)` models emitting the tuple
`(bytes(png_bytes), s_w, s_h)`) together with the filesystem after the run:
* when no payload is acquired, `None` is emitted and no file is written;
* every acquired payload is first dumped to `ocrclip-raw-{ts}.bin`;
* a payload the coercion chain cannot turn into bytes additionally writes
  `ocrclip-capture-failed-{ts}.bin` and emits `None`;
* coerced bytes rejected by `Image.open`/`load` additionally write
  `ocrclip-capture-invalid-{ts}.png` and emit `None`;
* validated bytes are emitted as the tuple. -/
def perform_capture (env : OverlayEnv) (l t w h : Int) (ts : Nat)
    (fs : List String) : Option (List Nat × Int × Int) × List String :=
  match acquirePayload env l t w h with
  | none => (none, fs)
  | some p =>
    let fs1 := fs ++ [rawDumpName ts]
    match coercePayload p with
    | none => (none, fs1 ++ ["ocrclip-capture-failed-" ++ toString ts ++ ".bin"])
    | some c =>
      if env.pilValid c then (some (c, w, h), fs1)
      else (none, fs1 ++ ["ocrclip-capture-invalid-" ++ toString ts ++ ".png"])

/-- The zero-area guard of `SnipOverlay.grab_region` (`src/main.py`
234-250) followed by the scheduling of `_perform_capture`: when the scaled
width or height is non-positive the overlay emits `None` immediately and
never runs `_perform_capture`; otherwise `_perform_capture` runs. Returns
(emitted signal value, whether `_perform_capture` ran, filesystem). -/
def grab_region_dispatch (env : OverlayEnv) (l t w h : Int) (ts : Nat)
    (fs : List String) : Option (List Nat × Int × Int) × Bool × List String :=
  if w ≤ 0 ∨ h ≤ 0 then (none, false, fs)
  else
    let r := perform_capture env l t w h ts fs
    (r.1, true, r.2)

/-- The four bytes `b"\x89PNG"` that `_ocr_and_copy` searches for with
`b.find(b"\x89PNG")` (`src/main.py` 596). -/
def pngSigBytes : List Nat :=
  [137, 80, 78, 71]

/-- `bytes.find` for a byte pattern: index of the first occurrence of `pat`
as a contiguous sub-list, `none` when absent (Python returns `-1`). -/
def findSub (pat : List Nat) : List Nat → Option Nat
  | [] => if pat.isEmpty then some 0 else none
  | x :: xs =>
    if (x :: xs).take pat.length = pat then some 0
    else (findSub pat xs).map (fun i => i + 1)

/-- A PIL image as produced by the worker's decode pipeline: either decoded
from a byte stream by `Image.open`, or reconstructed from raw RGB pixels
(`Image.frombytes("RGB", ...)`), or from raw RGBA pixels converted to RGB
(`Image.frombytes("RGBA", ...).convert("RGB")`). -/
inductive PILImg where
  | decoded (b : List Nat)
  | rawRGB (w h : Int) (b : List Nat)
  | rawRGBAtoRGB (w h : Int) (b : List Nat)
  deriving DecidableEq, Repr

/-- Oracles for the worker's decode attempts in `_ocr_and_copy`:
`decodeMem b` is whether `Image.open(io.BytesIO(b))` + `load()` succeeds,
`decodeFile b` whether opening the same bytes back from a temporary file
succeeds. PIL raw-pixel reconstruction (`Image.frombytes` on a buffer of
exactly the right length) is modelled as always succeeding. -/
structure WorkerEnv where
  decodeMem : List Nat → Bool
  decodeFile : List Nat → Bool

/-- The decode pipeline `_ocr_and_copy` applies to a tuple payload
`(b, scaled_w, scaled_h)` whose first component is bytes (`src/main.py`
573-678):
1. `Image.open` on the in-memory bytes;
2. on failure, write the bytes to a temp file and `Image.open` that;
3. on failure, look for `b"\x89PNG"`; when found at an offset strictly
   greater than 0, retry `Image.open` on the bytes from that offset;
4. when still undecoded, interpret the bytes as raw RGB when
   `len(b) == scaled_w * scaled_h * 3`, and as raw RGBA (converted to RGB)
   when `len(b) == scaled_w * scaled_h * 4`.
`none` means every attempt failed (`pil_image_obj` stayed `None`). -/
def workerDecodeTuple (env : WorkerEnv) (b : List Nat) (w h : Int) : Option PILImg :=
  if env.decodeMem b then some (PILImg.decoded b)
  else if env.decodeFile b then some (PILImg.decoded b)
  else
    let afterSig : Option PILImg :=
      match findSub pngSigBytes b with
      | some idx =>
        if 0 < idx ∧ env.decodeMem (b.drop idx) then some (PILImg.decoded (b.drop idx))
        else none
      | none => none
    match afterSig with
    | some img => some img
    | none =>
      if (b.length : Int) = w * h * 3 then some (PILImg.rawRGB w h b)
      else if (b.length : Int) = w * h * 4 then some (PILImg.rawRGBAtoRGB w h b)
      else none

/-- One easyocr result tuple `(bbox, text, confidence)`; `text` is the
element at index 1 that `_ocr_and_copy` extracts with `r[1]`. -/
structure OCRItem where
  bbox : List (Int × Int)
  text : String
  confid : Int
  deriving DecidableEq, Repr

/-- A Python exception as observed by the worker's `except` clauses: a
`RuntimeError` with its message, or any other exception. -/
inductive PyErr where
  | runtime (msg : String)
  | other
  deriving DecidableEq, Repr

/-- The `ReaderWrapper` state from `build_reader` (`src/main.py` 805-833):
`eventSet` is `self._event.is_set()`, `failed` is `self._failed`, and
`real` is the underlying easyocr reader (`none` = `self._real is None`),
modelled as a pure function from the image to its result list. -/
structure ReaderWrapper where
  eventSet : Bool
  failed : Bool
  real : Option (PILImg → List OCRItem)

/-- `ReaderWrapper.readtext` (`src/main.py` 824-830): raise
`RuntimeError("ocr_not_ready")` while the init event is unset, raise
`RuntimeError("ocr_failed")` when `self._failed or self._real is None`, and
otherwise delegate to `self._real.readtext(img)`. -/
def ReaderWrapper.readtext (w : ReaderWrapper) (img : PILImg) :
    Except PyErr (List OCRItem) :=
  if w.eventSet = false then Except.error (PyErr.runtime "ocr_not_ready")
  else if w.failed then Except.error (PyErr.runtime "ocr_failed")
  else
    match w.real with
    | none => Except.error (PyErr.runtime "ocr_failed")
    | some f => Except.ok (f img)

/-- The OCR step of `TrayApp._ocr_and_copy` (`src/main.py` 748-762): when
`self.reader is None` the text is `"(easyocr not installed)"`; otherwise the
text is the results' index-1 fields joined with `"\n"`, with the
`RuntimeError` messages mapped to the placeholder texts and any other
exception to `"(ocr error)"`. -/
def tray_ocr_text (reader : Option ReaderWrapper) (img : PILImg) : String :=
  match reader with
  | none => "(easyocr not installed)"
  | some rd =>
    match rd.readtext img with
    | Except.ok results => String.intercalate "\n" (results.map OCRItem.text)
    | Except.error (PyErr.runtime m) =>
      if m = "ocr_not_ready" then "(ocr initializing - try again shortly)"
      else "(ocr failed to run)"
    | Except.error PyErr.other => "(ocr error)"

/-- `TrayApp._ocr_and_copy` on a tuple payload whose first component is
bytes: run the decode pipeline; on failure emit
`"(snip conversion error)"` and return before the OCR block, otherwise run
the OCR step on the decoded image. The boolean records whether the OCR block
was reached. -/
def ocr_and_copy_tuple (env : WorkerEnv) (reader : Option ReaderWrapper)
    (b : List Nat) (w h : Int) : String × Bool :=
  match workerDecodeTuple env b w h with
  | none => ("(snip conversion error)", false)
  | some img => (tray_ocr_text reader img, true)

/-- GUI-thread state touched by `TrayApp._on_ocr_finished`: the application
clipboard's text and the list of tray notifications shown so far. -/
structure TrayState where
  clipboardText : String
  messagesShown : List String
  deriving DecidableEq, Repr

/-- `TrayApp._on_ocr_finished` (`src/main.py` 776-792): set the application
clipboard to the emitted text, then show the "Text copied to clipboard"
notification. -/
def on_ocr_finished (text : String) (st : TrayState) : TrayState :=
  { clipboardText := text
    messagesShown := st.messagesShown ++ ["Text copied to clipboard"] }

/-! ## Lemmas about the backend chain -/

theorem runBackends_attempted_take (env : CaptureEnv) (l : List Backend) (errs : List String) :
    ∃ k, (runBackends env l errs).2 = l.take k := by
  induction l generalizing errs with
  | nil => exact ⟨0, rfl⟩
  | cons b rest ih =>
    cases h : env.run b with
    | ok d => exact ⟨1, by simp [runBackends, h]⟩
    | error e =>
      obtain ⟨k, hk⟩ := ih (errs ++ [backendName b ++ ": " ++ e])
      exact ⟨k + 1, by simp [runBackends, h, hk]⟩

theorem runBackends_ok_decomp (env : CaptureEnv) (l : List Backend) (errs : List String)
    (d : List Nat) (hok : (runBackends env l errs).1 = Except.ok d) :
    ∃ pre b post, l = pre ++ b :: post
      ∧ (runBackends env l errs).2 = pre ++ [b]
      ∧ env.run b = Except.ok d
      ∧ ∀ b' ∈ pre, ∃ e, env.run b' = Except.error e := by
  induction l generalizing errs with
  | nil => simp [runBackends] at hok
  | cons b rest ih =>
    cases h : env.run b with
    | ok d' =>
      have hd : d' = d := by simpa [runBackends, h] using hok
      exact ⟨[], b, rest, by simp, by simp [runBackends, h], by rw [h, hd], by simp⟩
    | error e =>
      have hok' :
          (runBackends env rest (errs ++ [backendName b ++ ": " ++ e])).1 = Except.ok d := by
        simpa [runBackends, h] using hok
      obtain ⟨pre, b0, post, h1, h2, h3, h4⟩ := ih _ hok'
      refine ⟨b :: pre, b0, post, by simp [h1], by simp [runBackends, h, h2], h3, ?_⟩
      intro b' hb'
      rcases List.mem_cons.mp hb' with rfl | hmem
      · exact ⟨e, h⟩
      · exact h4 b' hmem

theorem runBackends_error_iff (env : CaptureEnv) (l : List Backend) (errs : List String) :
    (∃ e, (runBackends env l errs).1 = Except.error e) ↔
      ∀ b ∈ l, ∃ e, env.run b = Except.error e := by
  induction l generalizing errs with
  | nil => simp [runBackends]
  | cons b rest ih =>
    cases h : env.run b with
    | ok d =>
      constructor
      · rintro ⟨e, he⟩
        simp [runBackends, h] at he
      · intro hall
        obtain ⟨e, he⟩ := hall b (by simp)
        rw [h] at he
        cases he
    | error e =>
      have hih := ih (errs ++ [backendName b ++ ": " ++ e])
      constructor
      · intro hex
        have hrest : ∀ b' ∈ rest, ∃ e', env.run b' = Except.error e' := by
          apply hih.mp
          simpa [runBackends, h] using hex
        intro b' hb'
        rcases List.mem_cons.mp hb' with rfl | hmem
        · exact ⟨e, h⟩
        · exact hrest b' hmem
      · intro hall
        have hrest : ∀ b' ∈ rest, ∃ e', env.run b' = Except.error e' :=
          fun b' hb' => hall b' (List.mem_cons_of_mem _ hb')
        obtain ⟨e', he'⟩ := hih.mpr hrest
        exact ⟨e', by simpa [runBackends, h] using he'⟩

theorem runBackends_error_all (env : CaptureEnv) (l : List Backend) (errs : List String)
    (herr : ∃ e, (runBackends env l errs).1 = Except.error e) :
    (runBackends env l errs).2 = l := by
  induction l generalizing errs with
  | nil => rfl
  | cons b rest ih =>
    cases h : env.run b with
    | ok d =>
      obtain ⟨e, he⟩ := herr
      simp [runBackends, h] at he
    | error e =>
      have herr' :
          ∃ e', (runBackends env rest (errs ++ [backendName b ++ ": " ++ e])).1
            = Except.error e' := by
        obtain ⟨e', he'⟩ := herr
        exact ⟨e', by simpa [runBackends, h] using he'⟩
      simp [runBackends, h, ih _ herr']

theorem runBackends_all_error (env : CaptureEnv) (errOf : Backend → String)
    (l : List Backend) (errs : List String)
    (h : ∀ b ∈ l, env.run b = Except.error (errOf b)) :
    (runBackends env l errs).1 = Except.error
      ("no_suitable_screencapture_backend: " ++
        String.intercalate ", "
          (errs ++ l.map (fun b => backendName b ++ ": " ++ errOf b))) := by
  induction l generalizing errs with
  | nil => simp [runBackends]
  | cons b rest ih =>
    have hb := h b (by simp)
    have hrest : ∀ b' ∈ rest, env.run b' = Except.error (errOf b') :=
      fun b' hb' => h b' (List.mem_cons_of_mem _ hb')
    have hlist :
        (errs ++ [backendName b ++ ": " ++ errOf b])
            ++ rest.map (fun b' => backendName b' ++ ": " ++ errOf b')
          = errs ++ (b :: rest).map (fun b' => backendName b' ++ ": " ++ errOf b') := by
      simp
    have := ih (errs ++ [backendName b ++ ": " ++ errOf b]) hrest
    rw [hlist] at this
    simpa [runBackends, hb] using this

/-! ## Claim theorems -/

/-- C1: `capture_region(left, top, width, height)` attempts backends strictly
in the order mss, Qt grabWindow, macOS screencapture (attempted only when
`sys.platform == "darwin"`), grim, maim, ImageMagick import; for every input
it returns the result of the first backend that succeeds without attempting
any later backend, and it raises RuntimeError if and only if every attempted
backend fails. -/
theorem capture_region_first_success (env : CaptureEnv) :
    (∃ k, (capture_region env).2 = (attemptOrder env).take k)
  ∧ (∀ d, (capture_region env).1 = Except.ok d →
      ∃ pre b post, attemptOrder env = pre ++ b :: post
        ∧ (capture_region env).2 = pre ++ [b]
        ∧ env.run b = Except.ok d
        ∧ ∀ b' ∈ pre, ∃ e, env.run b' = Except.error e)
  ∧ ((∃ e, (capture_region env).1 = Except.error e)
      ↔ ∀ b ∈ attemptOrder env, ∃ e, env.run b = Except.error e)
  ∧ ((∃ e, (capture_region env).1 = Except.error e) →
      (capture_region env).2 = attemptOrder env)
  ∧ List.Sublist (attemptOrder env)
      [Backend.mss, Backend.qt, Backend.macos, Backend.grim, Backend.maim, Backend.imp]
  ∧ (Backend.macos ∈ attemptOrder env ↔ env.isDarwin = true)
  ∧ (Backend.mss ∈ attemptOrder env ↔ env.hasMss = true) := by
  refine ⟨runBackends_attempted_take env (attemptOrder env) [],
    fun d h => runBackends_ok_decomp env (attemptOrder env) [] d h,
    runBackends_error_iff env (attemptOrder env) [],
    fun h => runBackends_error_all env (attemptOrder env) [] h, ?_, ?_, ?_⟩
  · cases h1 : env.hasMss <;> cases h2 : env.isDarwin <;> simp [attemptOrder, h1, h2]
  · cases h1 : env.hasMss <;> cases h2 : env.isDarwin <;> simp [attemptOrder, h1, h2]
  · cases h1 : env.hasMss <;> cases h2 : env.isDarwin <;> simp [attemptOrder, h1, h2]

theorem capture_region_first_success_witness :
    ∃ pre b post,
      attemptOrder ⟨true, false, fun b => match b with
        | Backend.mss => Except.error "mss boom"
        | _ => Except.ok [9]⟩ = pre ++ b :: post
      ∧ (capture_region ⟨true, false, fun b => match b with
          | Backend.mss => Except.error "mss boom"
          | _ => Except.ok [9]⟩).2 = pre ++ [b]
      ∧ CaptureEnv.run ⟨true, false, fun b => match b with
          | Backend.mss => Except.error "mss boom"
          | _ => Except.ok [9]⟩ b = Except.ok [9]
      ∧ ∀ b' ∈ pre, ∃ e,
          CaptureEnv.run ⟨true, false, fun b => match b with
            | Backend.mss => Except.error "mss boom"
            | _ => Except.ok [9]⟩ b' = Except.error e :=
  (capture_region_first_success _).2.1 [9] rfl

/-- C8: when every backend fails, the RuntimeError raised by
`capture_region` has a message that begins with
`"no_suitable_screencapture_backend: "` followed by one `"name: error"`
entry per attempted backend, joined by `", "`, in the exact order the
backends were attempted. -/
theorem capture_region_error_message (env : CaptureEnv) (errOf : Backend → String)
    (h : ∀ b, env.run b = Except.error (errOf b)) :
    (capture_region env).1 = Except.error
      ("no_suitable_screencapture_backend: " ++
        String.intercalate ", "
          ((attemptOrder env).map (fun b => backendName b ++ ": " ++ errOf b))) := by
  have hall := runBackends_all_error env errOf (attemptOrder env) [] (fun b _ => h b)
  simpa using hall

theorem capture_region_error_message_witness :
    (capture_region ⟨true, true, fun _ => Except.error "boom"⟩).1 = Except.error
      "no_suitable_screencapture_backend: mss: boom, qt: boom, macos: boom, grim: boom, maim: boom, import: boom" :=
  capture_region_error_message ⟨true, true, fun _ => Except.error "boom"⟩
    (fun _ => "boom") (fun _ => rfl)

/-- C4: in the overlay's capture flow, when the capture module is
unavailable or its `capture_region` call raises, the Qt fallback
(`QScreen.grabWindow` saved to a PNG buffer) is attempted with the same
scaled coordinates; the flow proceeds with a `None` payload (reporting
capture failure) if and only if both the capture module and this Qt
fallback fail. -/
theorem perform_capture_qt_fallback (env : OverlayEnv) (l t w h : Int) :
    (modulePhase env l t w h = none ↔
      env.captureAvailable = false ∨ env.captureModule l t w h = none)
  ∧ (∀ p, modulePhase env l t w h = some p → acquirePayload env l t w h = some p)
  ∧ (modulePhase env l t w h = none →
      acquirePayload env l t w h = (env.qtGrab l t w h).map Payload.bytesP)
  ∧ (acquirePayload env l t w h = none ↔
      modulePhase env l t w h = none ∧ env.qtGrab l t w h = none)
  ∧ (∀ ts fs, acquirePayload env l t w h = none →
      perform_capture env l t w h ts fs = (none, fs)) := by
  refine ⟨?_, ?_, ?_, ?_, ?_⟩
  · cases hav : env.captureAvailable <;> simp [modulePhase, hav]
  · intro p hp
    simp [acquirePayload, hp]
  · intro hp
    simp [acquirePayload, hp]
  · cases hp : modulePhase env l t w h with
    | none => cases hq : env.qtGrab l t w h <;> simp [acquirePayload, hp, hq]
    | some p => simp [acquirePayload, hp]
  · intro ts fs hacq
    simp [perform_capture, hacq]

theorem perform_capture_qt_fallback_witness :
    acquirePayload ⟨true, fun _ _ _ _ => none, fun _ _ _ _ => none, fun _ => true⟩
      0 0 4 4 = none
  ∧ perform_capture ⟨true, fun _ _ _ _ => none, fun _ _ _ _ => none, fun _ => true⟩
      0 0 4 4 7 ["keep.txt"] = (none, ["keep.txt"]) :=
  ⟨rfl,
    (perform_capture_qt_fallback
      ⟨true, fun _ _ _ _ => none, fun _ _ _ _ => none, fun _ => true⟩
      0 0 4 4).2.2.2.2 7 ["keep.txt"] rfl⟩

/-- C2 counterexample: a `QImage` payload whose `save(buf, "PNG")` call
returns false is not coerced into a bytes value — `png_bytes` stays `None`
and the overlay emits `None` — even though the validation oracle would
accept any bytes, contradicting the claim that every QImage payload is
coerced into bytes (and then emitted as a tuple when the bytes validate). -/
theorem coerce_qimage_not_total :
    coercePayload (Payload.qimage false [1, 2, 3]) = none
  ∧ (perform_capture
      ⟨true, fun _ _ _ _ => some (Payload.qimage false [1, 2, 3]),
        fun _ _ _ _ => none, fun _ => true⟩ 0 0 5 5 0 []).1 = none :=
  ⟨rfl, rfl⟩

/-- C2 (amended): the normalization step always coerces bytes, bytearray,
memoryview and PIL-image payloads into bytes; a QImage or QPixmap payload is
coerced exactly when its `save` call succeeds, and a `data()`/`tobytes()`
payload exactly when that call returns bytes without raising; an acquired
payload is emitted on the snipped signal as `(png_bytes, scaled_w, scaled_h)`
if and only if the coercion produced bytes that PIL `Image.open` + `load`
accepts; in every other case the overlay emits `None`. -/
theorem perform_capture_emission (env : OverlayEnv) (l t w h : Int) (ts : Nat)
    (fs : List String) :
    (∀ b, coercePayload (Payload.bytesP b) = some b
        ∧ coercePayload (Payload.bytearrayP b) = some b
        ∧ coercePayload (Payload.memoryviewP b) = some b
        ∧ coercePayload (Payload.pilImage b) = some b)
  ∧ (∀ ok buf, (coercePayload (Payload.qimage ok buf)).isSome = ok
        ∧ (coercePayload (Payload.qpixmap ok buf)).isSome = ok)
  ∧ (∀ r, coercePayload (Payload.dataObj r) = r
        ∧ coercePayload (Payload.tobytesObj r) = r)
  ∧ (∀ p, acquirePayload env l t w h = some p →
      ∀ c, ((perform_capture env l t w h ts fs).1 = some (c, w, h) ↔
        (coercePayload p = some c ∧ env.pilValid c = true)))
  ∧ (∀ p, acquirePayload env l t w h = some p →
      ((perform_capture env l t w h ts fs).1 = none ↔
        ∀ c, coercePayload p = some c → env.pilValid c = false)) := by
  refine ⟨fun b => ⟨rfl, rfl, rfl, rfl⟩,
    fun ok buf => by cases ok <;> exact ⟨rfl, rfl⟩,
    fun r => ⟨rfl, rfl⟩, ?_, ?_⟩
  · intro p hp c
    cases hc : coercePayload p with
    | none => simp [perform_capture, hp, hc]
    | some c' =>
      cases hv : env.pilValid c' with
      | false =>
        simp [perform_capture, hp, hc, hv]
        exact fun hcc => hcc ▸ hv
      | true =>
        simp only [perform_capture, hp, hc, hv, if_true]
        constructor
        · intro hsome
          have heq : c' = c := congrArg Prod.fst (Option.some.inj hsome)
          exact ⟨by rw [heq], heq ▸ hv⟩
        · rintro ⟨hcc, _⟩
          rw [Option.some.inj hcc]
  · intro p hp
    cases hc : coercePayload p with
    | none => simp [perform_capture, hp, hc]
    | some c' =>
      cases hv : env.pilValid c' with
      | false => simp [perform_capture, hp, hc, hv]
      | true =>
        simp only [perform_capture, hp, hc, hv, if_true]
        constructor
        · intro hnone
          cases hnone
        · intro hall
          have hfalse := hall c' rfl
          rw [hv] at hfalse
          cases hfalse

theorem perform_capture_emission_witness :
    (perform_capture ⟨true, fun _ _ _ _ => some (Payload.bytesP [7]),
        fun _ _ _ _ => none, fun _ => true⟩ 0 0 3 4 0 []).1 = some ([7], 3, 4) :=
  ((perform_capture_emission
      ⟨true, fun _ _ _ _ => some (Payload.bytesP [7]),
        fun _ _ _ _ => none, fun _ => true⟩
      0 0 3 4 0 []).2.2.2.1 (Payload.bytesP [7]) rfl [7]).mpr ⟨rfl, rfl⟩

/-- C7 counterexample: a completed (successful) capture does leave a file
behind — `_perform_capture` writes the raw debug dump
`ocrclip-raw-{ts}.bin` for every acquired payload and never deletes it, so
the filesystem is not left unchanged. -/
theorem perform_capture_leaves_dump :
    (perform_capture ⟨true, fun _ _ _ _ => some (Payload.bytesP [7]),
        fun _ _ _ _ => none, fun _ => true⟩ 0 0 5 5 0 []).1 = some ([7], 5, 5)
  ∧ (perform_capture ⟨true, fun _ _ _ _ => some (Payload.bytesP [7]),
        fun _ _ _ _ => none, fun _ => true⟩ 0 0 5 5 0 []).2 = ["ocrclip-raw-0.bin"] :=
  ⟨rfl, rfl⟩

/-- C7 (amended): every CLI capture backend deletes its temporary file
before returning — whether the CLI tool succeeds or fails, the caller's
filesystem is restored — but the overlay's `_perform_capture` writes a
persistent raw debug dump `ocrclip-raw-{ts}.bin` for every acquired
payload (and further dump files on coercion or validation failure), so a
completed capture does leave files behind. -/
theorem cli_capture_cleanup_and_overlay_dumps :
    (∀ tmp ok content fs, tmp ∉ fs → (cli_capture tmp ok content fs).2 = fs)
  ∧ (∀ env l t w h ts fs p, acquirePayload env l t w h = some p →
      rawDumpName ts ∈ (perform_capture env l t w h ts fs).2) := by
  constructor
  · intro tmp ok content fs htmp
    show (fs ++ [tmp]).erase tmp = fs
    induction fs with
    | nil => simp
    | cons x rest ih =>
      have hx : ¬(x = tmp) := fun hxe => htmp (hxe ▸ List.mem_cons_self x rest)
      have hrest : tmp ∉ rest := fun hm => htmp (List.mem_cons_of_mem x hm)
      simp [List.erase_cons, ih hrest]
      exact fun hxe => absurd hxe hx
  · intro env l t w h ts fs p hp
    cases hc : coercePayload p with
    | none => simp [perform_capture, hp, hc]
    | some c => cases hv : env.pilValid c <;> simp [perform_capture, hp, hc, hv]

theorem cli_capture_cleanup_witness :
    (cli_capture "tmp1234.png" true [1, 2] ["other.txt"]).2 = ["other.txt"]
  ∧ rawDumpName 0 ∈ (perform_capture
      ⟨true, fun _ _ _ _ => some (Payload.bytesP [7]),
        fun _ _ _ _ => none, fun _ => true⟩ 0 0 5 5 0 []).2 :=
  ⟨cli_capture_cleanup_and_overlay_dumps.1 "tmp1234.png" true [1, 2] ["other.txt"]
      (by simp),
    cli_capture_cleanup_and_overlay_dumps.2
      ⟨true, fun _ _ _ _ => some (Payload.bytesP [7]),
        fun _ _ _ _ => none, fun _ => true⟩ 0 0 5 5 0 [] (Payload.bytesP [7]) rfl⟩

/-- C9: for every selection whose width or height is non-positive after
device-pixel-ratio scaling, `grab_region` emits `None` on the snipped
signal and invokes no capture backend at all — `_perform_capture` (and so
`capture_region` and the Qt fallback) is never run, and the filesystem is
untouched. -/
theorem grab_region_zero_area (env : OverlayEnv) (l t w h : Int) (ts : Nat)
    (fs : List String) (hzero : w ≤ 0 ∨ h ≤ 0) :
    grab_region_dispatch env l t w h ts fs = (none, false, fs) := by
  simp [grab_region_dispatch, hzero]

theorem grab_region_zero_area_witness :
    grab_region_dispatch
      ⟨true, fun _ _ _ _ => some (Payload.bytesP [7]), fun _ _ _ _ => none,
        fun _ => true⟩ 0 0 0 5 0 [] = (none, false, []) :=
  grab_region_zero_area _ 0 0 0 5 0 [] (Or.inl (by decide))

/-- C3: in the OCR worker's format-detection heuristic, for every tuple
payload `(b, scaled_w, scaled_h)` whose bytes PIL cannot decode directly or
via a temp file: if the payload contains the PNG signature `b"\x89PNG"` at
an offset strictly greater than 0, decoding is retried from that offset
(and a successful retry is the decode result); otherwise if `len(b)` equals
`scaled_w * scaled_h * 3` the bytes are interpreted as raw RGB pixels, and
if `len(b)` equals `scaled_w * scaled_h * 4` they are interpreted as raw
RGBA pixels converted to RGB; if none of these applies, the worker emits
`"(snip conversion error)"` and performs no OCR. -/
theorem worker_format_detection (env : WorkerEnv) (reader : Option ReaderWrapper)
    (b : List Nat) (w h : Int)
    (hm : env.decodeMem b = false) (hf : env.decodeFile b = false) :
    (∀ idx, findSub pngSigBytes b = some idx → 0 < idx →
        env.decodeMem (b.drop idx) = true →
        workerDecodeTuple env b w h = some (PILImg.decoded (b.drop idx)))
  ∧ ((∀ idx, findSub pngSigBytes b = some idx → idx = 0) →
      (b.length : Int) = w * h * 3 →
        workerDecodeTuple env b w h = some (PILImg.rawRGB w h b))
  ∧ ((∀ idx, findSub pngSigBytes b = some idx → idx = 0) →
      (b.length : Int) ≠ w * h * 3 → (b.length : Int) = w * h * 4 →
        workerDecodeTuple env b w h = some (PILImg.rawRGBAtoRGB w h b))
  ∧ ((∀ idx, findSub pngSigBytes b = some idx → idx = 0) →
      (b.length : Int) ≠ w * h * 3 → (b.length : Int) ≠ w * h * 4 →
        ocr_and_copy_tuple env reader b w h = ("(snip conversion error)", false)) := by
  have hsig : ∀ P : Prop,
      ((∀ idx, findSub pngSigBytes b = some idx → idx = 0) →
        (match findSub pngSigBytes b with
          | some idx =>
            if 0 < idx ∧ env.decodeMem (b.drop idx) then
              some (PILImg.decoded (b.drop idx))
            else none
          | none => (none : Option PILImg)) = none) := by
    intro _ hno
    cases hidx : findSub pngSigBytes b with
    | none => rfl
    | some idx =>
      have : idx = 0 := hno idx hidx
      subst this
      simp
  refine ⟨?_, ?_, ?_, ?_⟩
  · intro idx hidx hpos hdec
    simp [workerDecodeTuple, hm, hf, hidx, hpos, hdec]
  · intro hno hlen
    simp only [workerDecodeTuple, hm, hf, Bool.false_eq_true, if_false]
    rw [hsig True hno]
    simp [hlen]
  · intro hno hlen3 hlen4
    simp only [workerDecodeTuple, hm, hf, Bool.false_eq_true, if_false]
    rw [hsig True hno]
    rw [if_neg hlen3, if_pos hlen4]
  · intro hno hlen3 hlen4
    have hdec : workerDecodeTuple env b w h = none := by
      simp only [workerDecodeTuple, hm, hf, Bool.false_eq_true, if_false]
      rw [hsig True hno]
      rw [if_neg hlen3, if_neg hlen4]
    simp [ocr_and_copy_tuple, hdec]

theorem worker_format_detection_witness :
    workerDecodeTuple ⟨fun _ => false, fun _ => false⟩ [1, 2, 3] 1 1
      = some (PILImg.rawRGB 1 1 [1, 2, 3]) :=
  (worker_format_detection ⟨fun _ => false, fun _ => false⟩ none [1, 2, 3] 1 1
      rfl rfl).2.1
    (fun idx hidx =>
      Option.noConfusion
        ((show findSub pngSigBytes [1, 2, 3] = none from rfl).symm.trans hidx))
    (by decide)

/-- C5: for every decoded snip image, the extracted text is the
newline-joined concatenation of the text field (element at index 1) of each
result returned by the OCR reader, in the reader's output order; when no
OCR engine is installed (`reader is None`) the produced text is exactly
`"(easyocr not installed)"`. -/
theorem tray_ocr_text_spec (img : PILImg) :
    (tray_ocr_text none img = "(easyocr not installed)")
  ∧ (∀ rd results, rd.readtext img = Except.ok results →
      tray_ocr_text (some rd) img =
        String.intercalate "\n" (results.map OCRItem.text)) := by
  refine ⟨rfl, ?_⟩
  intro rd results hok
  simp [tray_ocr_text, hok]

theorem tray_ocr_text_spec_witness :
    tray_ocr_text
      (some ⟨true, false, some (fun _ => [⟨[], "hello", 0⟩, ⟨[], "world", 0⟩])⟩)
      (PILImg.decoded []) = "hello\nworld" :=
  (tray_ocr_text_spec (PILImg.decoded [])).2
    ⟨true, false, some (fun _ => [⟨[], "hello", 0⟩, ⟨[], "world", 0⟩])⟩
    [⟨[], "hello", 0⟩, ⟨[], "world", 0⟩] rfl

/-- C6: for every string emitted on the `ocr_finished` signal, the handler
`_on_ocr_finished` sets the application clipboard's text to exactly that
string, so after handling, the clipboard contains the OCR result
unchanged. -/
theorem on_ocr_finished_sets_clipboard (text : String) (st : TrayState) :
    (on_ocr_finished text st).clipboardText = text :=
  rfl

/-- C10: `ReaderWrapper.readtext` never invokes the underlying OCR engine
before background initialization has completed: it raises
`RuntimeError("ocr_not_ready")` whenever the initialization event is not
yet set, raises `RuntimeError("ocr_failed")` whenever initialization
finished with failure or produced no reader, and delegates to the real
reader only when initialization completed successfully. -/
theorem readtext_gating (w : ReaderWrapper) (img : PILImg) :
    (w.eventSet = false →
      w.readtext img = Except.error (PyErr.runtime "ocr_not_ready"))
  ∧ (w.eventSet = true → (w.failed = true ∨ w.real = none) →
      w.readtext img = Except.error (PyErr.runtime "ocr_failed"))
  ∧ (∀ f, w.eventSet = true → w.failed = false → w.real = some f →
      w.readtext img = Except.ok (f img))
  ∧ (∀ results, w.readtext img = Except.ok results →
      w.eventSet = true ∧ w.failed = false ∧
        ∃ f, w.real = some f ∧ results = f img) := by
  refine ⟨?_, ?_, ?_, ?_⟩
  · intro hev
    simp [ReaderWrapper.readtext, hev]
  · intro hev hfail
    rcases hfail with hfail | hreal
    · simp [ReaderWrapper.readtext, hev, hfail]
    · cases hfl : w.failed <;>
        simp [ReaderWrapper.readtext, hev, hfl, hreal]
  · intro f hev hfl hreal
    simp [ReaderWrapper.readtext, hev, hfl, hreal]
  · intro results hok
    cases hev : w.eventSet with
    | false => simp [ReaderWrapper.readtext, hev] at hok
    | true =>
      cases hfl : w.failed with
      | true => simp [ReaderWrapper.readtext, hev, hfl] at hok
      | false =>
        cases hreal : w.real with
        | none => simp [ReaderWrapper.readtext, hev, hfl, hreal] at hok
        | some f =>
          refine ⟨rfl, rfl, f, rfl, ?_⟩
          have := hok
          simp [ReaderWrapper.readtext, hev, hfl, hreal] at this
          exact this.symm

theorem readtext_gating_witness :
    ReaderWrapper.readtext ⟨false, false, none⟩ (PILImg.decoded [])
      = Except.error (PyErr.runtime "ocr_not_ready") :=
  (readtext_gating ⟨false, false, none⟩ (PILImg.decoded [])).1 rfl

end Ocrclip
